import Mathlib

/-!
Verification of the mesh-connection failover layer
(`tarantool/mesh_connection.py`): round-robin endpoint rotation,
URI parsing, the periodic topology refresh and the bounded-retry
reconnect loop, and the request-dispatch wrapper around them.

The Python module is embedded shallowly: every method becomes a pure
Lean function over an explicit `MeshState`; exceptions become an
`Option PyError` component of the result (the state component carries
the mutations that happened before the raise, matching in-place
mutation semantics); the network collaborators that live outside this
repository (the `Connection` base class) are oracles passed as
arguments, following the abstract single-node client of the design
document.
-/

namespace TarantoolMesh

/-- An endpoint, the dict with keys host and port used throughout
`mesh_connection.py`. Compared structurally, as Python dicts are. -/
structure Endpoint where
  host : String
  port : Int
deriving DecidableEq, Repr

/-- The Python exception kinds reachable from the embedded code.
`networkError` and `databaseError` are the tarantool error classes;
`nameError` models referencing a local variable that was never bound;
`typeError` models subscripting `None`; `zeroDivisionError` and
`indexError` model `% 0` and out-of-range list indexing. -/
inductive PyError where
  | networkError
  | databaseError
  | nameError
  | typeError
  | zeroDivisionError
  | indexError
deriving DecidableEq, Repr

/-- A value appearing in a refresh response list: either a
"host:port" string or a composite structure with host and port
fields (a Lua table arriving as a Python dict). -/
inductive Descriptor where
  | str (s : String)
  | comp (host : String) (port : Int)
deriving DecidableEq, Repr

/-- `RoundRobinStrategy.__init__` (mesh_connection.py lines 28-30):
stores the address list and a cursor starting at 0. Generic in the
element type because Python lists are heterogeneous: the constructor
fills it with endpoint dicts, the refresh path with parse results
that may be `None`. -/
structure RoundRobinStrategy (α : Type) where
  addrs : List α
  pos : Nat
deriving DecidableEq, Repr

/-- `RoundRobinStrategy.getnext` (lines 32-35): remembers the cursor,
advances it modulo the list length, and returns the element at the
remembered cursor. `len(self.addrs) = 0` makes the modulo raise
ZeroDivisionError; an out-of-range remembered cursor would raise
IndexError (unreachable from the states this module builds). -/
def RoundRobinStrategy.getnext {α : Type} (s : RoundRobinStrategy α) :
    Except PyError (α × RoundRobinStrategy α) :=
  if s.addrs.length = 0 then .error .zeroDivisionError
  else
    match s.addrs[s.pos]? with
    | some a => .ok (a, ⟨s.addrs, (s.pos + 1) % s.addrs.length⟩)
    | none => .error .indexError

/-- Python `str.split(sep)` for a one-character separator, on the
character list of the string: `"a:b".split(":") = ["a", "b"]`,
`"".split(":") = [""]`, `":".split(":") = ["", ""]`. -/
def pySplitChar (sep : Char) : List Char → List (List Char)
  | [] => [[]]
  | c :: cs =>
    if c = sep then [] :: pySplitChar sep cs
    else
      match pySplitChar sep cs with
      | [] => [[c]]
      | h :: t => (c :: h) :: t

/-- Value of a decimal digit string, most significant first. -/
def digitsVal (ds : List Char) : Int :=
  ds.foldl (fun a c => 10 * a + ((c.toNat : Int) - 48)) 0

/-- Decimal digit run accepted by `int()`: nonempty, all digits. -/
def decDigits? (ds : List Char) : Option Int :=
  if ds ≠ [] ∧ ds.all Char.isDigit then some (digitsVal ds) else none

/-- Modelled from the spec: the Python builtin `int(str)` used by
`parse_uri` (line 44); the builtin is not part of this repository.
It strips surrounding whitespace, accepts an optional sign followed
by decimal digits, and raises ValueError otherwise — here the
ValueError branch is `none`, which `parse_uri` turns into its own
`None` result. Underscore digit separators are not modelled; no
behaviour in this module depends on them. -/
def pyInt (cs : List Char) : Option Int :=
  let t := ((cs.dropWhile Char.isWhitespace).reverse.dropWhile Char.isWhitespace).reverse
  match t with
  | [] => none
  | c :: ds =>
    if c = '-' then (decDigits? ds).map (fun n => -n)
    else if c = '+' then decDigits? ds
    else decDigits? (c :: ds)

/-- `parse_uri` (lines 38-51). For a string: empty or without a
colon, the result is None; otherwise split on the colon, the part
after the first colon must parse as an int, and both the host part
and the port must be truthy (nonempty string, nonzero int). For a
composite dict value the guard `uri_str and ... in uri_str` performs
dict *key* membership, the colon is never a key, so the function
returns None — the composite form is rejected, not parsed. -/
def parse_uri : Descriptor → Option Endpoint
  | .comp _ _ => none
  | .str s =>
    if s.data = [] ∨ ¬ (':' ∈ s.data) then none
    else
      match pySplitChar ':' s.data with
      | host :: p :: _ =>
        match pyInt p with
        | none => none
        | some port =>
          if host ≠ [] ∧ port ≠ 0 then some ⟨⟨host⟩, port⟩ else none
      | _ => none

/-- The loop of `MeshConnection.__init__` lines 123-127: append each
cluster-list entry unless its host equals the primary host or its
port equals the primary port. -/
def initAddrsAux (host : String) (port : Int) : List Endpoint → List Endpoint
  | [] => []
  | i :: rest =>
    if i.host = host ∨ i.port = port then initAddrsAux host port rest
    else i :: initAddrsAux host port rest

/-- `MeshConnection.__init__` lines 122-127: the initial address
list is the primary endpoint followed by the filtered cluster list. -/
def initAddrs (host : String) (port : Int) (cluster_list : List Endpoint) : List Endpoint :=
  ⟨host, port⟩ :: initAddrsAux host port cluster_list

/-- The mutable state of a `MeshConnection` that the embedded methods
read and write. `closeCount` counts calls of the inherited `close()`
so that closing the old connection is observable; `connected` is the
inherited liveness flag, set to false by `close()` per the design
document (close releases the underlying connection). Times are exact
rationals standing for the float seconds of `time.time()`. -/
structure MeshState where
  strategy : RoundRobinStrategy (Option Endpoint)
  host : String
  port : Int
  connected : Bool
  last_nodes_refresh : ℚ
  nodes_refresh_interval : ℚ
  get_nodes_function_name : Option String
  closeCount : Nat
deriving DecidableEq, Repr

/-- The refresh half of `_opt_refresh_instances` (lines 154-170).
`respData` is the outcome of `_send_request_wo_reconnect` for the
configured get-nodes call: either a raised error or the response
data, a list whose first element is the list of endpoint
descriptors. Returns the state after the block together with the
exception it raised, if any.

Faithful points worth noting against the source: the local variable
`addrs` is bound only inside `if resp.data and resp.data[0]:`, yet
line 166 reads it unconditionally, so an empty response reaches an
unbound local (NameError); the parse results are collected without
filtering, so unparsable entries contribute `None` elements; and the
eviction branch subscripts the rotated-to entry, so a `None` in
front position raises TypeError. -/
def refreshPart (st : MeshState) (now : ℚ)
    (respData : Except PyError (List (List Descriptor))) : MeshState × Option PyError :=
  if st.connected = true ∧ st.nodes_refresh_interval / 1000 < now - st.last_nodes_refresh then
    match respData with
    | .error e => (st, some e)
    | .ok data =>
      match data with
      | [] => (st, some .nameError)
      | d0 :: _ =>
        if d0 = [] then (st, some .nameError)
        else
          let addrs := d0.map parse_uri
          let st1 : MeshState := { st with strategy := ⟨addrs, 0⟩, last_nodes_refresh := now }
          if some ⟨st1.host, st1.port⟩ ∉ addrs then
            match st1.strategy.getnext with
            | .error e => (st1, some e)
            | .ok (none, strat2) => ({ st1 with strategy := strat2 }, some .typeError)
            | .ok (some a, strat2) =>
              ({ st1 with
                  strategy := strat2, host := a.host, port := a.port,
                  connected := false, closeCount := st1.closeCount + 1 }, none)
          else (st1, none)
  else (st, none)

/-- Result of one pass through the body of the `while` loop of
lines 176-187: either the loop is over (with the final state and the
exception leaving it, if any), or it continues with an updated
attempt counter and state. -/
inductive LoopStep where
  | done (st : MeshState) (err : Option PyError)
  | next (natt : Int) (st : MeshState)
deriving DecidableEq, Repr

/-- One iteration of the reconnect loop (lines 176-189). `connect`
is the oracle for the inherited `_opt_reconnect` (the external
single-node client of the design document): `true` means the connect
to the candidate succeeds and sets the connected flag, `false` means
it raises NetworkError, which the `except` clause turns into
`continue` — without touching `nattempts`. The candidate is written
into `host`/`port` before the connect is attempted, because the
inherited connect dials whatever `self.host`/`self.port` hold. When
the candidate equals the current endpoint, `nattempts` is
decremented and no connect is attempted. When the counter is
negative the `while`-`else` clause raises NetworkError. -/
def reconnectStep (connect : Endpoint → Bool) (natt : Int) (st : MeshState) : LoopStep :=
  if 0 ≤ natt then
    match st.strategy.getnext with
    | .error e => .done st (some e)
    | .ok (addr, strat1) =>
      let st1 : MeshState := { st with strategy := strat1 }
      match addr with
      | none => .done st1 (some .typeError)
      | some a =>
        if a.host ≠ st1.host ∨ a.port ≠ st1.port then
          let st2 : MeshState := { st1 with host := a.host, port := a.port }
          if connect a then .done { st2 with connected := true } none
          else .next natt st2
        else .next (natt - 1) st1
  else .done st (some .networkError)

/-- The reconnect loop of lines 176-189, driven by `reconnectStep`.
The loop of the source has no structural termination measure (the
attempt counter is not decremented on a failed connect), so the
embedding runs it on fuel: `none` means the fuel ran out with the
loop still going. -/
def reconnectLoop (connect : Endpoint → Bool) :
    Nat → Int → MeshState → Option (MeshState × Option PyError)
  | 0, _, _ => none
  | fuel + 1, natt, st =>
    match reconnectStep connect natt st with
    | .done st1 e => some (st1, e)
    | .next natt1 st1 => reconnectLoop connect fuel natt1 st1

/-- `_opt_refresh_instances` (lines 149-189): the refresh half
followed, when the connection is down, by the reconnect loop with
attempt budget `len(addrs) * 2 + 1`. -/
def opt_refresh_instances (st : MeshState) (now : ℚ)
    (respData : Except PyError (List (List Descriptor)))
    (connect : Endpoint → Bool) (fuel : Nat) : Option (MeshState × Option PyError) :=
  match refreshPart st now respData with
  | (st1, some e) => some (st1, some e)
  | (st1, none) =>
    if st1.connected = false then
      reconnectLoop connect fuel (((st1.strategy.addrs.length * 2 : Nat) : Int) + 1) st1
    else some (st1, none)

/-- Python truthiness of the optional `get_nodes_function_name`
string: configured and nonempty. -/
def truthyName : Option String → Bool
  | none => false
  | some s => decide (s ≠ "")

/-- `_send_request` (lines 191-212). `dispatch n` is the oracle for
the n-th call of the inherited `Connection._send_request` (the
external dispatch; not part of this repository). Result: `none` when
a refresh-triggered reconnect loop never terminates, otherwise the
final state, the number of dispatches that were made, and the
outcome handed to the caller.

The source wraps the first dispatch in `try/except NetworkError/
finally`, and the `finally` clause ends in `return super()._send_
request(request)`. A `return` inside `finally` runs on every path
out of the `try` statement and supersedes both the value being
returned and any in-flight exception, so: a successful first
dispatch is followed by a second dispatch whose outcome is the one
returned; a NetworkError first runs the except clause (mark
disconnected, refresh/reconnect) and then the second dispatch; any
other exception from the first dispatch (DatabaseError included) is
discarded and the second dispatch decides the outcome. -/
def send_request {R : Type} (st : MeshState) (now : ℚ)
    (respData : Except PyError (List (List Descriptor)))
    (connect : Endpoint → Bool) (fuel : Nat)
    (dispatch : Nat → Except PyError R) :
    Option (MeshState × Nat × Except PyError R) :=
  match (if truthyName st.get_nodes_function_name
         then opt_refresh_instances st now respData connect fuel
         else some (st, none)) with
  | none => none
  | some (stA, some e) => some (stA, 0, .error e)
  | some (stA, none) =>
    match dispatch 0 with
    | .ok _ => some (stA, 2, dispatch 1)
    | .error .networkError =>
      match opt_refresh_instances { stA with connected := false } now respData connect fuel with
      | none => none
      | some (stC, _) => some (stC, 2, dispatch 1)
    | .error _ => some (stA, 2, dispatch 1)

/-- The stream of results of successive `getnext` calls: `callSeq s i`
is what the (i+1)-th call returns when the first call is made on `s`
(`none` if some call raised). -/
def callSeq {α : Type} : RoundRobinStrategy α → Nat → Option α
  | s, 0 => match s.getnext with | .ok (a, _) => some a | .error _ => none
  | s, i + 1 => match s.getnext with | .ok (_, s1) => callSeq s1 i | .error _ => none

/-! Concrete states used to evaluate the code on specific inputs. -/

/-- Endpoint h1:1. -/
def eH1 : Endpoint := ⟨"h1", 1⟩

/-- Endpoint h2:2. -/
def eH2 : Endpoint := ⟨"h2", 2⟩

/-- A connected session with no get-nodes function configured. -/
def exNoRefresh : MeshState :=
  { strategy := ⟨[some eH1], 0⟩, host := "h1", port := 1, connected := true,
    last_nodes_refresh := 0, nodes_refresh_interval := 60000,
    get_nodes_function_name := none, closeCount := 0 }

/-- A disconnected session over the two endpoints h1:1 and h2:2,
currently recorded on h1:1, cursor at 0. -/
def exDown : MeshState :=
  { strategy := ⟨[some eH1, some eH2], 0⟩, host := "h1", port := 1, connected := false,
    last_nodes_refresh := 0, nodes_refresh_interval := 60000,
    get_nodes_function_name := some "get_cluster_nodes", closeCount := 0 }

/-- `exDown` with the cursor advanced to 1 (the state after the
reconnect loop drew the candidate equal to the current endpoint). -/
def exDownMid : MeshState :=
  { exDown with strategy := ⟨[some eH1, some eH2], 1⟩ }

/-- `exDown` after the loop swapped the recorded endpoint to h2:2
and a connect attempt to it failed (cursor back at 0). -/
def exDownSwapped : MeshState :=
  { exDown with strategy := ⟨[some eH1, some eH2], 0⟩, host := "h2", port := 2 }

/-- A connected session on h1:1 whose refresh is overdue at time 100. -/
def exDue : MeshState :=
  { strategy := ⟨[some eH1], 0⟩, host := "h1", port := 1, connected := true,
    last_nodes_refresh := 0, nodes_refresh_interval := 1000,
    get_nodes_function_name := some "get_cluster_nodes", closeCount := 0 }

/-- A connected session on hA:1 whose refresh is overdue at time 100. -/
def exDueA : MeshState :=
  { strategy := ⟨[some ⟨"hA", 1⟩], 0⟩, host := "hA", port := 1, connected := true,
    last_nodes_refresh := 0, nodes_refresh_interval := 1000,
    get_nodes_function_name := some "get_cluster_nodes", closeCount := 0 }

/-- The state the code reaches from `exDueA` when a due refresh
returns the single endpoint hB:2: the set is rebuilt, the evicted
active endpoint is rotated to hB:2 and the connection closed — and
the subsequent reconnect loop then exhausts its budget without ever
attempting hB:2 (every draw equals the already-recorded endpoint), so
the session stays disconnected. -/
def exDueAEvicted : MeshState :=
  { strategy := ⟨[some ⟨"hB", 2⟩], 0⟩, host := "hB", port := 2, connected := false,
    last_nodes_refresh := 100, nodes_refresh_interval := 1000,
    get_nodes_function_name := some "get_cluster_nodes", closeCount := 1 }

/-! # Theorems -/

attribute [local semireducible] Rat.sub Rat.mul Rat.inv

/-- Claim C1: the claim states that when the first delegated dispatch
succeeds the request is dispatched exactly once and the response of that
dispatch is returned. The code violates this: the `return` inside the
`finally` clause of `_send_request` runs on the success path too, so
the request is dispatched a second time and the second response is the
one returned. Here the first dispatch returns 1 and the second
returns 2; `_send_request` makes 2 dispatches and returns 2. -/
theorem c1_success_path_dispatches_twice :
    send_request exNoRefresh 0 (.ok []) (fun _ => false) 1
      (fun n => if n = 0 then .ok 1 else .ok (2 : Nat)) =
      some (exNoRefresh, 2, .ok 2) := by
  rfl

/-- Claim C3: the claim states that a DatabaseError from the external
client is propagated immediately, with no re-dispatch. The code
violates this: the `return` in the `finally` clause swallows the
in-flight DatabaseError, dispatches the request a second time, and
returns the result of the second dispatch (here `.ok 7`). No reconnect is
triggered (the state is unchanged), but the error is replaced by the
result of a later dispatch. -/
theorem c3_database_error_swallowed :
    send_request exNoRefresh 0 (.ok []) (fun _ => false) 1
      (fun n => if n = 0 then .error .databaseError else .ok (7 : Nat)) =
      some (exNoRefresh, 2, .ok 7) := by
  rfl

/-- Claim C4: the claim states that a refresh whose response carries
an empty first result completes as a no-op with no error raised. The
code violates the no-error part: the local `addrs` is bound only
inside `if resp.data and resp.data[0]:`, and line 166 then reads it,
so the empty-response path raises NameError (UnboundLocalError). The
state itself is indeed untouched — same endpoint set, active
endpoint, connected flag and `last_nodes_refresh` — but an exception
escapes instead of a clean no-op. -/
theorem c4_empty_refresh_raises_name_error (fuel : Nat) (connect : Endpoint → Bool) :
    opt_refresh_instances exDue 100 (.ok [[]]) connect fuel =
      some (exDue, some .nameError) := by
  rfl

/-- Claim C7: the claim states that refresh entries that fail to
parse are skipped, so the rebuilt set holds exactly the successfully
parsed endpoints. The code violates this: `list(parse_uri(i) for i in
resp.data[0])` keeps the `None` returned for an unparsable entry. On
the response with entries "h1:1" and "bad", the rebuilt strategy list
is `[some h1:1, none]` — the failed entry is retained as a `None`
placeholder (the refresh itself raises nothing here). -/
theorem c7_malformed_entry_kept_as_none (fuel : Nat) (connect : Endpoint → Bool) :
    opt_refresh_instances exDue 100 (.ok [[.str "h1:1", .str "bad"]]) connect fuel =
      some ({ exDue with strategy := ⟨[some eH1, none], 0⟩, last_nodes_refresh := 100 },
            none) ∧
    none ∈ ([some eH1, none] : List (Option Endpoint)) := by
  exact ⟨rfl, by decide⟩

/-- Successive `getnext` calls starting from a valid cursor read the
list cyclically: the i-th call returns the element at index
`(pos + i) % length`. -/
theorem callSeq_getElem {α : Type} (addrs : List α) :
    ∀ (i pos : Nat), pos < addrs.length →
      callSeq ⟨addrs, pos⟩ i = addrs[(pos + i) % addrs.length]? := by
  intro i
  induction i with
  | zero =>
    intro pos hp
    have hlen : ¬ addrs.length = 0 := by omega
    have hg : addrs[pos]? = some addrs[pos] := List.getElem?_eq_getElem hp
    simp [callSeq, RoundRobinStrategy.getnext, hlen, hg, Nat.mod_eq_of_lt hp]
  | succ i ih =>
    intro pos hp
    have hlen : ¬ addrs.length = 0 := by omega
    have hg : addrs[pos]? = some addrs[pos] := List.getElem?_eq_getElem hp
    have hp1 : (pos + 1) % addrs.length < addrs.length := Nat.mod_lt _ (by omega)
    have hidx : ((pos + 1) % addrs.length + i) % addrs.length
        = (pos + (i + 1)) % addrs.length := by
      rw [Nat.mod_add_mod]
      congr 1
      omega
    simp [callSeq, RoundRobinStrategy.getnext, hlen, hg, ih pos hp, ih _ hp1, hidx]

/-- Claim C9: for an EndpointSet of size N at least 1 with fresh
cursor, the i-th of the first 2N consecutive `getnext` calls returns
the element at index i mod N, so N consecutive calls return every
endpoint exactly once in insertion order and the next N calls repeat
the same sequence identically; moreover every call returns the
element at the current cursor and advances the cursor modulo the set
size. -/
theorem c9_round_robin {α : Type} (addrs : List α)
    (hN : 1 ≤ addrs.length) (i : Nat) (_hi : i < 2 * addrs.length) :
    callSeq ⟨addrs, 0⟩ i = addrs[i % addrs.length]? ∧
    (∀ (s : RoundRobinStrategy α) (h : s.pos < s.addrs.length),
      s.getnext = .ok (s.addrs[s.pos], ⟨s.addrs, (s.pos + 1) % s.addrs.length⟩)) := by
  constructor
  · have := callSeq_getElem addrs i 0 (by omega)
    simpa using this
  · intro s h
    have hlen : ¬ s.addrs.length = 0 := by omega
    have hg : s.addrs[s.pos]? = some s.addrs[s.pos] := List.getElem?_eq_getElem h
    simp [RoundRobinStrategy.getnext, hlen, hg]

/-- Witness for C9: three endpoints, fifth call (index 4) returns the
element at index 4 mod 3 = 1, the one returned by the second call. -/
theorem c9_round_robin_witness :
    callSeq ⟨[10, 20, 30], 0⟩ 4 = ([10, 20, 30] : List Nat)[4 % 3]? ∧
    (∀ (s : RoundRobinStrategy Nat) (h : s.pos < s.addrs.length),
      s.getnext = .ok (s.addrs[s.pos], ⟨s.addrs, (s.pos + 1) % s.addrs.length⟩)) :=
  c9_round_robin [10, 20, 30] (by decide) 4 (by decide)

/-- An endpoint whose host equals the primary host or whose port
equals the primary port never enters the filtered cluster list. -/
theorem initAddrsAux_not_mem (host : String) (port : Int) (e : Endpoint)
    (he : e.host = host ∨ e.port = port) :
    ∀ cl : List Endpoint, e ∉ initAddrsAux host port cl := by
  intro cl
  induction cl with
  | nil => simp [initAddrsAux]
  | cons i rest ih =>
    by_cases hc : i.host = host ∨ i.port = port
    · simpa [initAddrsAux, hc] using ih
    · simp only [initAddrsAux, if_neg hc, List.mem_cons]
      rintro (rfl | hm)
      · exact hc he
      · exact ih hm

/-- An endpoint that matches the primary in neither host nor port is
kept by the constructor filter with its multiplicity unchanged. -/
theorem initAddrsAux_count (host : String) (port : Int) (e : Endpoint)
    (h1 : e.host ≠ host) (h2 : e.port ≠ port) :
    ∀ cl : List Endpoint, (initAddrsAux host port cl).count e = cl.count e := by
  intro cl
  induction cl with
  | nil => rfl
  | cons i rest ih =>
    by_cases hc : i.host = host ∨ i.port = port
    · have hne : ¬ (i = e) := by
        rintro rfl
        rcases hc with hc | hc
        · exact h1 hc
        · exact h2 hc
      simp [initAddrsAux, hc, List.count_cons, ih, hne]
    · simp [initAddrsAux, hc, List.count_cons, ih]

/-- Claim C10: the initial endpoint set of the constructor excludes
every cluster-list entry whose host equals the primary host OR whose
port equals the primary port — even an entry not structurally equal
to the primary endpoint — and the kept entries are not deduplicated
against each other (their multiplicity in the cluster list is
preserved in the initial set). -/
theorem c10_cluster_list_filter (host : String) (port : Int) (cl : List Endpoint) :
    (∀ e ∈ cl, (e.host = host ∨ e.port = port) → e ∉ initAddrsAux host port cl) ∧
    (∀ e : Endpoint, e.host ≠ host → e.port ≠ port →
      (initAddrs host port cl).count e = cl.count e) := by
  constructor
  · intro e _ he
    exact initAddrsAux_not_mem host port e he cl
  · intro e h1 h2
    have hne : ¬ ((⟨host, port⟩ : Endpoint) = e) := by
      rintro rfl
      exact h1 rfl
    simp [initAddrs, List.count_cons, hne, initAddrsAux_count host port e h1 h2 cl]

/-- Witness for C10: primary a:1; the entry a:2 (same host, different
port) is excluded, and the duplicate entry c:3 keeps multiplicity 2. -/
theorem c10_cluster_list_filter_witness :
    (⟨"a", 2⟩ : Endpoint) ∉ initAddrsAux "a" 1 [⟨"a", 2⟩, ⟨"b", 1⟩, ⟨"c", 3⟩, ⟨"c", 3⟩] ∧
    (initAddrs "a" 1 [⟨"a", 2⟩, ⟨"b", 1⟩, ⟨"c", 3⟩, ⟨"c", 3⟩]).count ⟨"c", 3⟩ =
      ([⟨"a", 2⟩, ⟨"b", 1⟩, ⟨"c", 3⟩, ⟨"c", 3⟩] : List Endpoint).count ⟨"c", 3⟩ :=
  ⟨(c10_cluster_list_filter "a" 1 [⟨"a", 2⟩, ⟨"b", 1⟩, ⟨"c", 3⟩, ⟨"c", 3⟩]).1
      ⟨"a", 2⟩ (by decide) (by decide),
   (c10_cluster_list_filter "a" 1 [⟨"a", 2⟩, ⟨"b", 1⟩, ⟨"c", 3⟩, ⟨"c", 3⟩]).2
      ⟨"c", 3⟩ (by decide) (by decide)⟩

/-- Claim C6 (counterexample): the claim states a failed connect
attempt leaves the recorded active endpoint unchanged. Starting from
`exDownMid` (recorded endpoint h1:1, cursor on h2:2) with a connect
oracle that always fails, one iteration of the reconnect loop ends
with the recorded endpoint swapped to h2:2 — the swap happened before
the connect outcome was known. -/
theorem c6_optimistic_swap_counterexample :
    reconnectStep (fun _ => false) 5 exDownMid = .next 5 exDownSwapped ∧
    exDownSwapped.host ≠ exDownMid.host := by
  exact ⟨rfl, by decide⟩

/-- Claim C6 (amended): the endpoint swap is applied before the
connect attempt, not after its outcome is known: whenever the loop
draws a candidate differing from the recorded endpoint and the
connect to it fails with NetworkError, the iteration continues with
the recorded endpoint already set to the failed candidate (the
attempt counter and the connected flag are unchanged). -/
theorem c6_swap_applied_before_connect (connect : Endpoint → Bool) (natt : Int)
    (st : MeshState) (a : Endpoint) (strat1 : RoundRobinStrategy (Option Endpoint))
    (hn : 0 ≤ natt)
    (hg : st.strategy.getnext = .ok (some a, strat1))
    (hd : a.host ≠ st.host ∨ a.port ≠ st.port)
    (hc : connect a = false) :
    reconnectStep connect natt st =
      .next natt { st with strategy := strat1, host := a.host, port := a.port } := by
  simp only [reconnectStep, if_pos hn, hg]
  simp [hd, hc]

/-- Witness for the amended C6 theorem at a concrete state. -/
theorem c6_swap_applied_before_connect_witness :
    reconnectStep (fun _ => false) 7 exDownMid =
      .next 7 { exDownMid with
                 strategy := ⟨[some eH1, some eH2], 0⟩,
                 host := eH2.host, port := eH2.port } :=
  c6_swap_applied_before_connect (fun _ => false) 7 exDownMid eH2
    ⟨[some eH1, some eH2], 0⟩ (by decide) rfl (by decide) rfl

/-- With two permanently unreachable endpoints the reconnect loop
cycles between the two swapped states without ever decrementing the
attempt counter: the `continue` of the `except NetworkError` clause
skips the decrement, so from either state the loop runs out of any
amount of fuel. -/
theorem c2_cycle :
    ∀ f : Nat, reconnectLoop (fun _ => false) f 4 exDownMid = none ∧
      reconnectLoop (fun _ => false) f 4 exDownSwapped = none := by
  intro f
  induction f with
  | zero => exact ⟨rfl, rfl⟩
  | succ f ih =>
    constructor
    · have hs : reconnectStep (fun _ => false) 4 exDownMid = .next 4 exDownSwapped := rfl
      simp only [reconnectLoop, hs]
      exact ih.2
    · have hs : reconnectStep (fun _ => false) 4 exDownSwapped = .next 4 exDownMid := rfl
      simp only [reconnectLoop, hs]
      exact ih.1

/-- Claim C2: the claim states that with every endpoint of a set of
size N permanently unreachable, reconnect terminates with
NetworkError after at most 2N+1 connect attempts because the budget
is decremented on each connect NetworkError. The code violates this:
`except NetworkError: continue` skips the decrement, so with the two
endpoints h1:1 and h2:2 both refusing every connect the loop never
terminates — for every amount of fuel the loop is still running. -/
theorem c2_reconnect_loop_never_terminates (fuel : Nat) :
    opt_refresh_instances exDown 0 (.ok []) (fun _ => false) fuel = none := by
  have h1 : opt_refresh_instances exDown 0 (.ok []) (fun _ => false) fuel
      = reconnectLoop (fun _ => false) fuel 5 exDown := rfl
  rw [h1]
  match fuel with
  | 0 => rfl
  | f + 1 =>
    have hs : reconnectStep (fun _ => false) 5 exDown = .next 4 exDownMid := rfl
    simp only [reconnectLoop, hs]
    exact (c2_cycle f).1

/-- Splitting a list without the separator yields the single chunk. -/
theorem pySplitChar_of_not_mem (sep : Char) :
    ∀ l : List Char, sep ∉ l → pySplitChar sep l = [l] := by
  intro l
  induction l with
  | nil => intro _; rfl
  | cons c cs ih =>
    intro h
    have hc : ¬ (c = sep) := fun he => h (by simp [he])
    have hcs : sep ∉ cs := fun hm => h (List.mem_cons_of_mem _ hm)
    simp [pySplitChar, hc, ih hcs]

/-- Splitting at the first separator occurrence peels off the prefix. -/
theorem pySplitChar_append (sep : Char) (l2 : List Char) :
    ∀ l1 : List Char, sep ∉ l1 →
      pySplitChar sep (l1 ++ sep :: l2) = l1 :: pySplitChar sep l2 := by
  intro l1
  induction l1 with
  | nil => intro _; simp [pySplitChar]
  | cons c cs ih =>
    intro h
    have hc : ¬ (c = sep) := fun he => h (by simp [he])
    have hcs : sep ∉ cs := fun hm => h (List.mem_cons_of_mem _ hm)
    simp [pySplitChar, hc, ih hcs]

/-- dropWhile is the identity when no element satisfies the test. -/
theorem dropWhile_eq_self_of_none (p : Char → Bool) :
    ∀ l : List Char, (∀ c ∈ l, p c = false) → l.dropWhile p = l := by
  intro l h
  cases l with
  | nil => rfl
  | cons c cs => simp [List.dropWhile_cons, h c (by simp)]

/-- A decimal digit is not whitespace. -/
theorem not_ws_of_isDigit {c : Char} (h : c.isDigit = true) : c.isWhitespace = false := by
  cases hcw : c.isWhitespace
  · rfl
  · exfalso
    have hor : c = ' ' ∨ c = '\t' ∨ c = '\r' ∨ c = '\n' := by
      simpa [Char.isWhitespace, or_assoc] using hcw
    rcases hor with h1 | h1 | h1 | h1 <;> subst h1 <;> exact absurd h (by decide)

/-- A decimal digit differs from any non-digit character. -/
theorem ne_of_isDigit {c : Char} (h : c.isDigit = true) (d : Char)
    (hd : d.isDigit = false) : ¬ (c = d) := by
  rintro rfl
  rw [h] at hd
  cases hd

/-- `int()` on a nonempty digit string returns its decimal value. -/
theorem pyInt_digits (ds : List Char) (hne : ds ≠ [])
    (hdig : ∀ c ∈ ds, c.isDigit = true) : pyInt ds = some (digitsVal ds) := by
  have hws : ∀ c ∈ ds, Char.isWhitespace c = false :=
    fun c hc => not_ws_of_isDigit (hdig c hc)
  have h1 : ds.dropWhile Char.isWhitespace = ds := dropWhile_eq_self_of_none _ ds hws
  have hwsr : ∀ c ∈ ds.reverse, Char.isWhitespace c = false :=
    fun c hc => hws c (List.mem_reverse.1 hc)
  have h2 : ds.reverse.dropWhile Char.isWhitespace = ds.reverse :=
    dropWhile_eq_self_of_none _ _ hwsr
  cases ds with
  | nil => exact absurd rfl hne
  | cons c cs =>
    have hc := hdig c (by simp)
    have hne1 : ¬ (c = '-') := ne_of_isDigit hc '-' (by decide)
    have hne2 : ¬ (c = '+') := ne_of_isDigit hc '+' (by decide)
    have hcs_dig : ∀ x ∈ cs, x.isDigit = true := fun x hx => hdig x (by simp [hx])
    unfold pyInt
    simp only [h1, h2, List.reverse_reverse]
    simp [hne1, hne2, decDigits?, hc, hcs_dig]
    exact hcs_dig

/-- Claim C8 (counterexample): the claim states that a composite
host/port structure parses to the corresponding Endpoint. It does
not: the guard of `parse_uri` does a membership test, which on a
Python dict inspects the keys, so a composite descriptor is rejected
with None instead of being parsed. -/
theorem c8_composite_rejected_counterexample :
    parse_uri (.comp "192.168.0.1" 3301) = none := rfl

/-- Claim C8 (amended): only the "host:port" string form of an
endpoint descriptor is accepted. A well-formed string — nonempty host
containing no colon, followed by a colon and a nonempty digit run of
nonzero value — parses to the corresponding Endpoint, while a
composite host/port structure always parses to None. -/
theorem c8_string_form_only (hostChars ds : List Char)
    (hh : hostChars ≠ []) (hcol : ':' ∉ hostChars)
    (hne : ds ≠ []) (hdig : ∀ c ∈ ds, c.isDigit = true)
    (hval : digitsVal ds ≠ 0) :
    parse_uri (.str ⟨hostChars ++ ':' :: ds⟩) = some ⟨⟨hostChars⟩, digitsVal ds⟩ ∧
    ∀ (h : String) (p : Int), parse_uri (.comp h p) = none := by
  constructor
  · have hm : ':' ∈ hostChars ++ ':' :: ds := by simp
    have hnil : ¬ (hostChars ++ ':' :: ds = []) := by simp
    have hds_nocol : ':' ∉ ds := by
      intro hmem
      exact absurd (hdig ':' hmem) (by decide)
    have hsplit : pySplitChar ':' (hostChars ++ ':' :: ds)
        = hostChars :: pySplitChar ':' ds := pySplitChar_append ':' ds hostChars hcol
    have hsplit2 : pySplitChar ':' ds = [ds] := pySplitChar_of_not_mem ':' ds hds_nocol
    have hpy : pyInt ds = some (digitsVal ds) := pyInt_digits ds hne hdig
    simp [parse_uri, hm, hnil, hsplit, hsplit2, hpy, hh, hval]
  · intro h p
    rfl

/-- Witness for the amended C8 theorem: the descriptor "h:301". -/
theorem c8_string_form_only_witness :
    parse_uri (.str ⟨['h'] ++ ':' :: ['3', '0', '1']⟩) =
      some ⟨⟨['h']⟩, digitsVal ['3', '0', '1']⟩ ∧
    ∀ (h : String) (p : Int), parse_uri (.comp h p) = none :=
  c8_string_form_only ['h'] ['3', '0', '1'] (by decide) (by decide) (by decide)
    (by decide) (by decide)

/-- Endpoints agreeing on host and port are equal. -/
theorem Endpoint.eq_of_parts (a b : Endpoint) (h1 : a.host = b.host)
    (h2 : a.port = b.port) : a = b := by
  cases a
  cases b
  simp_all

/-- `getnext` on a strategy over fully parsed endpoints at a valid
cursor returns the endpoint under the cursor and advances it. -/
theorem getnext_map_some (es : List Endpoint) (pos : Nat) (hp : pos < es.length) :
    (RoundRobinStrategy.mk (es.map some) pos).getnext =
      .ok (some es[pos], ⟨es.map some, (pos + 1) % es.length⟩) := by
  have hne : ¬ es = [] := by
    intro h
    subst h
    simp at hp
  have hg : (es.map some)[pos]? = some (some es[pos]) := by
    simp [List.getElem?_eq_getElem, hp]
  simp [RoundRobinStrategy.getnext, hne, hg]

/-- Claim C5 (counterexample): the claim states that after a refresh
response omitting the active endpoint A but containing B, the session
is connected to a member of the new set before control returns. With
active hA:1, response ["hB:2"], and a connect oracle that always
succeeds, the code instead raises NetworkError and leaves the session
disconnected: the reconnect loop only attempts candidates differing
from the recorded endpoint, and after the eviction rotation the
recorded endpoint is already hB:2, so the lone member is never
attempted and the budget runs out. -/
theorem c5_singleton_eviction_counterexample :
    opt_refresh_instances exDueA 100 (.ok [[.str "hB:2"]]) (fun _ => true) 10 =
      some (exDueAEvicted, some .networkError) ∧
    exDueAEvicted.connected = false := by
  exact ⟨rfl, rfl⟩


/-- In the reconnect loop with a connect oracle that always succeeds,
on a strategy over fully parsed endpoints: when the draws at offsets
0..k-1 all equal the recorded endpoint and the draw at offset k
differs from it, the loop skips k times — spending k units of budget —
then swaps to the differing candidate, connects, and stops
successfully with that candidate recorded and the cursor just past
it. -/
theorem reconnectLoop_skip_then_connect (es : List Endpoint) (cur : Endpoint) :
    ∀ (k fuel : Nat) (natt : Int) (pos : Nat) (st : MeshState),
      pos < es.length →
      st.strategy = ⟨es.map some, pos⟩ →
      st.host = cur.host → st.port = cur.port →
      (∀ j, j < k → es[(pos + j) % es.length]? = some cur) →
      (∀ e : Endpoint, es[(pos + k) % es.length]? = some e → e ≠ cur) →
      (k : Int) ≤ natt → k < fuel →
      ∃ e : Endpoint, es[(pos + k) % es.length]? = some e ∧
        reconnectLoop (fun _ => true) fuel natt st =
          some ({ st with
                   strategy := ⟨es.map some, (pos + k + 1) % es.length⟩,
                   host := e.host, port := e.port, connected := true }, none) := by
  intro k
  induction k with
  | zero =>
    intro fuel natt pos st hp hstrat hhost hport _ hkd hn hf
    obtain ⟨f, rfl⟩ : ∃ f, fuel = f + 1 := ⟨fuel - 1, by omega⟩
    have hn0 : (0 : Int) ≤ natt := by exact_mod_cast hn
    have hidx : (pos + 0) % es.length = pos := by
      simp [Nat.mod_eq_of_lt hp]
    have hge : es[(pos + 0) % es.length]? = some es[pos] := by
      rw [hidx]
      exact List.getElem?_eq_getElem hp
    refine ⟨es[pos], hge, ?_⟩
    have hne : es[pos] ≠ cur := hkd es[pos] hge
    have hd : es[pos].host ≠ st.host ∨ es[pos].port ≠ st.port := by
      by_contra hcon
      push_neg at hcon
      exact hne (Endpoint.eq_of_parts _ _ (by rw [hcon.1, hhost]) (by rw [hcon.2, hport]))
    have hstep : reconnectStep (fun _ => true) natt st =
        .done { st with
                 strategy := ⟨es.map some, (pos + 1) % es.length⟩,
                 host := es[pos].host, port := es[pos].port, connected := true } none := by
      simp only [reconnectStep, if_pos hn0, hstrat, getnext_map_some es pos hp]
      simp [hd]
    simp only [reconnectLoop, hstep]
  | succ k ih =>
    intro fuel natt pos st hp hstrat hhost hport hk hkd hn hf
    obtain ⟨f, rfl⟩ : ∃ f, fuel = f + 1 := ⟨fuel - 1, by omega⟩
    have hN : 0 < es.length := by omega
    have hcur2 : es[pos] = cur := by
      have h0 := hk 0 (by omega)
      rw [show (pos + 0) % es.length = pos from by simp [Nat.mod_eq_of_lt hp]] at h0
      rw [List.getElem?_eq_getElem hp] at h0
      exact Option.some.inj h0
    have hn0 : 0 ≤ natt := by
      have : ((0 : Nat) : Int) ≤ ((k + 1 : Nat) : Int) := by push_cast; omega
      omega
    have hstep : reconnectStep (fun _ => true) natt st =
        .next (natt - 1) { st with strategy := ⟨es.map some, (pos + 1) % es.length⟩ } := by
      simp only [reconnectStep, if_pos hn0, hstrat, getnext_map_some es pos hp]
      simp [hcur2, hhost, hport]
    have hp1 : (pos + 1) % es.length < es.length := Nat.mod_lt _ hN
    have hk1 : ∀ j, j < k → es[((pos + 1) % es.length + j) % es.length]? = some cur := by
      intro j hj
      have he : ((pos + 1) % es.length + j) % es.length = (pos + (j + 1)) % es.length := by
        rw [Nat.mod_add_mod]
        congr 1
        omega
      rw [he]
      exact hk (j + 1) (by omega)
    have hkd1 : ∀ e : Endpoint,
        es[((pos + 1) % es.length + k) % es.length]? = some e → e ≠ cur := by
      intro e he
      apply hkd e
      have hix : ((pos + 1) % es.length + k) % es.length = (pos + (k + 1)) % es.length := by
        rw [Nat.mod_add_mod]
        congr 1
        omega
      rwa [hix] at he
    have hn1 : (k : Int) ≤ natt - 1 := by
      have : ((k + 1 : Nat) : Int) ≤ natt := hn
      push_cast at this
      omega
    obtain ⟨e, hge, hloop⟩ := ih f (natt - 1) ((pos + 1) % es.length)
      { st with strategy := ⟨es.map some, (pos + 1) % es.length⟩ }
      hp1 rfl hhost hport hk1 hkd1 hn1 (by omega)
    have hix2 : ((pos + 1) % es.length + k) % es.length = (pos + (k + 1)) % es.length := by
      rw [Nat.mod_add_mod]
      congr 1
      omega
    refine ⟨e, by rwa [hix2] at hge, ?_⟩
    simp only [reconnectLoop, hstep]
    rw [hloop]
    have hix3 : ((pos + 1) % es.length + k + 1) % es.length
        = (pos + (k + 1) + 1) % es.length := by
      rw [Nat.add_assoc, Nat.mod_add_mod]
      congr 1
      omega
    rw [hix3]


/-- In the reconnect loop with a connect oracle that always succeeds,
on a strategy over fully parsed endpoints whose list holds some
endpoint differing from the recorded one: the loop terminates
successfully within a budget and fuel of one lap, connecting to some
member different from the recorded endpoint; all fields other than
the strategy cursor and the recorded endpoint are preserved. -/
theorem reconnectLoop_connects_of_exists (es : List Endpoint) (cur : Endpoint)
    (pos : Nat) (st : MeshState) (natt : Int) (fuel : Nat)
    (hp : pos < es.length)
    (hstrat : st.strategy = ⟨es.map some, pos⟩)
    (hhost : st.host = cur.host) (hport : st.port = cur.port)
    (hex0 : ∃ i : Nat, i < es.length ∧ ¬ (es[i]? = some cur))
    (hn : (es.length : Int) ≤ natt) (hf : es.length < fuel) :
    ∃ stF : MeshState,
      reconnectLoop (fun _ => true) fuel natt st = some (stF, none) ∧
      stF.connected = true ∧
      (∃ e ∈ es, e ≠ cur ∧ stF.host = e.host ∧ stF.port = e.port) ∧
      stF.closeCount = st.closeCount ∧
      stF.last_nodes_refresh = st.last_nodes_refresh := by
  obtain ⟨i0, hi0, hi0ne⟩ := hex0
  have hNpos : 0 < es.length := by omega
  have hP0 : ¬ (es[(pos + (i0 + es.length - pos) % es.length) % es.length]? = some cur) := by
    have hidx : (pos + (i0 + es.length - pos) % es.length) % es.length = i0 := by
      rw [Nat.add_mod_mod]
      have h3 : pos + (i0 + es.length - pos) = i0 + es.length := by omega
      rw [h3, Nat.add_mod_right, Nat.mod_eq_of_lt hi0]
    rw [hidx]
    exact hi0ne
  have hex : ∃ j : Nat, ¬ (es[(pos + j) % es.length]? = some cur) :=
    ⟨(i0 + es.length - pos) % es.length, hP0⟩
  have hkP : ¬ (es[(pos + Nat.find hex) % es.length]? = some cur) := Nat.find_spec hex
  have hkle : Nat.find hex ≤ (i0 + es.length - pos) % es.length := Nat.find_min' hex hP0
  have hklt : Nat.find hex < es.length := by
    have : (i0 + es.length - pos) % es.length < es.length := Nat.mod_lt _ hNpos
    omega
  have hkmin : ∀ j, j < Nat.find hex → es[(pos + j) % es.length]? = some cur := by
    intro j hj
    exact not_not.1 (Nat.find_min hex hj)
  have hkd : ∀ e : Endpoint, es[(pos + Nat.find hex) % es.length]? = some e → e ≠ cur := by
    intro e he hcon
    rw [hcon] at he
    exact hkP he
  obtain ⟨e, hge, hloop⟩ := reconnectLoop_skip_then_connect es cur (Nat.find hex) fuel
    natt pos st hp hstrat hhost hport hkmin hkd (by omega) (by omega)
  refine ⟨_, hloop, rfl, ⟨e, List.getElem?_mem hge, hkd e hge, rfl, rfl⟩, rfl, rfl⟩

/-- Claim C5 (amended): with active endpoint A and a due refresh whose
response holds a non-empty, fully parsable endpoint list omitting A,
the refresh rebuilds the set, rotates off A, closes the old
connection (closeCount grows by one), and — provided the new list
holds some endpoint differing from its first element and connects
succeed — the reconnect loop connects, so on return the active
endpoint is a member of the newly built set (hence not A) and the
session is connected. -/
theorem c5_eviction_migrates (st : MeshState) (now : ℚ)
    (d0 : List Descriptor) (rest : List (List Descriptor))
    (B0 : Endpoint) (es' : List Endpoint) (fuel : Nat)
    (hconn : st.connected = true)
    (hdue : st.nodes_refresh_interval / 1000 < now - st.last_nodes_refresh)
    (hparse : d0.map parse_uri = (B0 :: es').map some)
    (hA : some (⟨st.host, st.port⟩ : Endpoint) ∉ (B0 :: es').map some)
    (hdiff : ∃ e ∈ es', e ≠ B0)
    (hfuel : es'.length + 2 ≤ fuel) :
    ∃ stF : MeshState,
      opt_refresh_instances st now (.ok (d0 :: rest)) (fun _ => true) fuel
        = some (stF, none) ∧
      stF.connected = true ∧
      some (⟨stF.host, stF.port⟩ : Endpoint) ∈ (B0 :: es').map some ∧
      ¬ ((⟨stF.host, stF.port⟩ : Endpoint) = ⟨st.host, st.port⟩) ∧
      stF.closeCount = st.closeCount + 1 := by
  have hd0ne : ¬ (d0 = []) := by
    intro h
    rw [h] at hparse
    simp at hparse
  have hgn := getnext_map_some (B0 :: es') 0 (by simp)
  have h1 : refreshPart st now (.ok (d0 :: rest)) =
      ({ st with
          strategy := ⟨(B0 :: es').map some, (0 + 1) % (B0 :: es').length⟩,
          last_nodes_refresh := now, host := B0.host, port := B0.port,
          connected := false, closeCount := st.closeCount + 1 }, none) := by
    unfold refreshPart
    rw [if_pos (⟨hconn, hdue⟩ :
      st.connected = true ∧ st.nodes_refresh_interval / 1000 < now - st.last_nodes_refresh)]
    simp only [hparse, if_neg hd0ne, if_pos hA, hgn]
    simp
  have h2 : opt_refresh_instances st now (.ok (d0 :: rest)) (fun _ => true) fuel
      = reconnectLoop (fun _ => true) fuel
          (((((B0 :: es').map some).length * 2 : Nat) : Int) + 1)
          { st with
             strategy := ⟨(B0 :: es').map some, (0 + 1) % (B0 :: es').length⟩,
             last_nodes_refresh := now, host := B0.host, port := B0.port,
             connected := false, closeCount := st.closeCount + 1 } := by
    unfold opt_refresh_instances
    rw [h1]
    rfl
  obtain ⟨e0, he0mem, he0ne⟩ := hdiff
  obtain ⟨i0, hi0, hie⟩ :
      ∃ i : Nat, i < (B0 :: es').length ∧ (B0 :: es')[i]? = some e0 := by
    obtain ⟨i, hi, he⟩ := List.mem_iff_getElem.1 (List.mem_cons_of_mem B0 he0mem)
    exact ⟨i, hi, by rw [List.getElem?_eq_getElem hi, he]⟩
  have hex0 : ∃ i : Nat, i < (B0 :: es').length ∧
      ¬ ((B0 :: es')[i]? = some B0) := by
    refine ⟨i0, hi0, ?_⟩
    rw [hie]
    intro hcon
    exact he0ne (Option.some.inj hcon)
  have hplt : (0 + 1) % (B0 :: es').length < (B0 :: es').length :=
    Nat.mod_lt _ (by simp)
  obtain ⟨stF, hloop, hconnF, ⟨e, hmem, hne, hhostF, hportF⟩, hclose, _⟩ :=
    reconnectLoop_connects_of_exists (B0 :: es') B0 ((0 + 1) % (B0 :: es').length)
      { st with
         strategy := ⟨(B0 :: es').map some, (0 + 1) % (B0 :: es').length⟩,
         last_nodes_refresh := now, host := B0.host, port := B0.port,
         connected := false, closeCount := st.closeCount + 1 }
      (((((B0 :: es').map some).length * 2 : Nat) : Int) + 1) fuel
      hplt rfl rfl rfl hex0
      (by simp only [List.length_map]; simp; omega)
      (by simp; omega)
  refine ⟨stF, ?_, hconnF, ?_, ?_, ?_⟩
  · rw [h2, hloop]
  · rw [hhostF, hportF]
    exact List.mem_map_of_mem some hmem
  · intro hEq
    apply hA
    rw [← hEq]
    rw [hhostF, hportF]
    exact List.mem_map_of_mem some hmem
  · rw [hclose]


/-- Witness for the amended C5 theorem: active hA:1, due refresh
returning ["hB:2", "hC:3"], connects succeed. -/
theorem c5_eviction_migrates_witness :
    ∃ stF : MeshState,
      opt_refresh_instances exDueA 100 (.ok [[.str "hB:2", .str "hC:3"]]) (fun _ => true) 10
        = some (stF, none) ∧
      stF.connected = true ∧
      some (⟨stF.host, stF.port⟩ : Endpoint) ∈
        ((⟨"hB", 2⟩ : Endpoint) :: [(⟨"hC", 3⟩ : Endpoint)]).map some ∧
      ¬ ((⟨stF.host, stF.port⟩ : Endpoint) = ⟨exDueA.host, exDueA.port⟩) ∧
      stF.closeCount = exDueA.closeCount + 1 :=
  c5_eviction_migrates exDueA 100 [.str "hB:2", .str "hC:3"] [] ⟨"hB", 2⟩ [⟨"hC", 3⟩] 10
    rfl (by decide) (by decide) (by decide) (by decide) (by decide)

end TarantoolMesh
